import Mathlib

set_option maxHeartbeats 1000000
set_option maxRecDepth 10000
set_option linter.unusedVariables false

/-!
Shallow embedding of `farm/modeling/biadaptive_model.py` (the bi-adaptive
model composition core) together with theorems checking the repository's
specification against it.

Python objects threaded through the model (tensors, lists, tuples, dicts,
strings, `None`) are embedded in one inductive `Val`.  Per-sample loss
tensors are embedded as `TensorVal` (the Python `sum` builtin starts from
the integer `0`, so a loss aggregate can be either a scalar or a 1-d
tensor; tensor values are over `Int`, since floating point is not
modelled).  Fallible Python code is embedded as `Except FarmError`.
-/

/-- A Python value passed between the composition core, the two encoders
and the prediction heads: `None`, strings, integers, tuples, lists and
dicts.  Tensors are opaque to the composition core and are represented by
whatever `Val` the collaborators produce. -/
inductive Val where
  | none : Val
  | str : String → Val
  | int : Int → Val
  | pair : Val → Val → Val
  | list : List Val → Val
  | dict : List (String × Val) → Val

/-- A torch tensor holding per-sample losses: either a Python number (such
as the `0` that the builtin `sum` starts from) or a 1-d tensor of
per-sample values. -/
inductive TensorVal where
  | scalar : Int → TensorVal
  | vec : List Int → TensorVal
  deriving DecidableEq

/-- Python `+` on loss values, with torch broadcasting between a number
and a 1-d tensor. -/
def tensorAdd : TensorVal → TensorVal → TensorVal
  | .scalar a, .scalar b => .scalar (a + b)
  | .scalar a, .vec v => .vec (v.map (fun x => a + x))
  | .vec v, .scalar a => .vec (v.map (fun x => x + a))
  | .vec v, .vec w => .vec (List.zipWith (fun a b => a + b) v w)

/-- The Python exceptions the embedded code can raise. -/
inductive FarmError where
  | valueError : String → FarmError
  | assertionError : String → FarmError
  | typeError : String → FarmError
  | keyError : String → FarmError
  | indexError : String → FarmError
  | unboundLocalError : String → FarmError
  | nameError : String → FarmError
  deriving DecidableEq

/-- Decidable equality of embedded fallible results, for concrete
evaluation. -/
instance exceptDecidableEq {ε α : Type} [DecidableEq ε] [DecidableEq α] :
    DecidableEq (Except ε α) := fun x y =>
  match x, y with
  | .ok a, .ok b =>
    if h : a = b then isTrue (by rw [h])
    else isFalse (fun hc => h (Except.ok.inj hc))
  | .error e, .error f =>
    if h : e = f then isTrue (by rw [h])
    else isFalse (fun hc => h (Except.error.inj hc))
  | .ok a, .error f => isFalse (fun hc => Except.noConfusion hc)
  | .error e, .ok b => isFalse (fun hc => Except.noConfusion hc)

/-- `loss_per_head_sum` (module level, biadaptive_model.py): the default
loss aggregation function, `return sum(loss_per_head)`.  Python's `sum`
folds `+` over the list starting from the integer `0`. -/
def loss_per_head_sum (loss_per_head : List TensorVal) (global_step : Option Nat)
    (batch : Val) : TensorVal :=
  loss_per_head.foldl tensorAdd (.scalar 0)

/-- A prediction head as consumed by the composition core: task metadata
(absent until `connect_heads_with_processor` populates it) plus the head's
behavioural capabilities.  `forward` takes the two dropped pooled encoder
outputs; `formatted_preds` takes `logits`, `preds` and `samples` (each
`Val.none` when the corresponding keyword is absent);
`merge_formatted_preds` is an optional capability operating on the
per-head result buckets. -/
structure PredictionHead where
  task_name : String
  label_tensor_name : Option String
  label_list : List String
  metric : Option String
  forward : Val → Val → Val
  logits_to_loss : Val → TensorVal
  logits_to_preds : Val → Val
  formatted_preds : Val → Val → Val → Val
  merge_formatted_preds : Option (List (List Val) → Val)
  ph_output_type : String

/-- An encoder (language model) as consumed by the composition core:
`forward` maps a batch to `(pooled_output, hidden_states)`;
`formatted_preds` is the encoder's own formatting routine used by the
zero-head branch. -/
structure LanguageModel where
  name : String
  language : String
  output_dims : Nat
  forward : Val → Val × Val
  formatted_preds : Val → Val

/-- The `lm1_output_types` / `lm2_output_types` arguments "can either be a
single string, or a list of strings". -/
inductive StrOrList where
  | str : String → StrOrList
  | list : List String → StrOrList

/-- The wrapping `[lm_output_types] if isinstance(lm_output_types, str)
else lm_output_types` performed by the constructor. -/
def strOrListAsList : StrOrList → List String
  | .str s => [s]
  | .list xs => xs

/-- The state of a constructed `BiAdaptiveModel` (the trainable
composition core). -/
structure BiAdaptiveModel where
  device : String
  language_model1 : LanguageModel
  lm1_output_dims : Nat
  language_model2 : LanguageModel
  lm2_output_dims : Nat
  prediction_heads : List PredictionHead
  dropout1 : Val → Val
  dropout2 : Val → Val
  lm1_output_types : List String
  lm2_output_types : List String
  loss_aggregation_fn : List TensorVal → Option Nat → Val → TensorVal

/-- The source default value `["per_sequence"]` of both `lm1_output_types`
and `lm2_output_types` in `BiAdaptiveModel.__init__`: a fixed one-element
list, whatever the number of heads. -/
def defaultOutputTypes : StrOrList := .list ["per_sequence"]

/-- `BiAdaptiveModel.__init__`.  The two `nn.Dropout(embeds_dropout_prob)`
modules are external torch collaborators whose sampled behaviour is
represented by the two function parameters `dropout1` and `dropout2` (the
dropout probability itself, a float, is not modelled); `.to(device)` is
the identity on the embedded values.  If `loss_aggregation_fn` is unset
the constructor falls back to `loss_per_head_sum`. -/
def BiAdaptiveModel.init (language_model1 language_model2 : LanguageModel)
    (prediction_heads : List PredictionHead) (device : String)
    (dropout1 dropout2 : Val → Val)
    (lm1_output_types lm2_output_types : StrOrList)
    (loss_aggregation_fn : Option (List TensorVal → Option Nat → Val → TensorVal)) :
    BiAdaptiveModel :=
  ⟨device, language_model1, language_model1.output_dims,
   language_model2, language_model2.output_dims, prediction_heads,
   dropout1, dropout2,
   strOrListAsList lm1_output_types, strOrListAsList lm2_output_types,
   match loss_aggregation_fn with
   | some f => f
   | none => loss_per_head_sum⟩

/-- The extraction-mode test in `BiAdaptiveModel.forward`:
`lm_out == "per_sequence" or lm_out == "per_sequence_continuous"`. -/
def extractionModeSupported (lm_out : String) : Bool :=
  lm_out == "per_sequence" || lm_out == "per_sequence_continuous"

/-- The message of the `ValueError` raised by `BiAdaptiveModel.forward`
for an unsupported extraction mode, naming the offending mode. -/
def unknownExtractionMsg (mode : String) : String :=
  "Unknown extraction strategy from DPR model: " ++ mode

/-- Python `zip` over three sequences (truncating to the shortest), as
used by the head loop in `BiAdaptiveModel.forward`. -/
def zip3 {α β γ : Type} : List α → List β → List γ → List (α × β × γ)
  | a :: as, b :: bs, c :: cs => (a, b, c) :: zip3 as bs cs
  | _, _, _ => []

/-- The body of the head loop of `BiAdaptiveModel.forward`, over
`zip(self.prediction_heads, self.lm1_output_types, self.lm2_output_types)`.
The first component of the result records, in order, the position of every
head whose own forward pass was executed before the loop finished or
raised; the second component is the collected logits or the raised
`ValueError`. -/
def runHeads (dropout1 dropout2 : Val → Val) (pooled_output1 pooled_output2 : Val) :
    List (PredictionHead × String × String) → Nat →
    List Nat × Except FarmError (List Val)
  | [], _ => ([], .ok [])
  | (head, lm1_out, lm2_out) :: rest, i =>
    if extractionModeSupported lm1_out then
      let output1 := dropout1 pooled_output1
      if extractionModeSupported lm2_out then
        let output2 := dropout2 pooled_output2
        let logits := head.forward output1 output2
        let r := runHeads dropout1 dropout2 pooled_output1 pooled_output2 rest (i + 1)
        (i :: r.1, r.2.map (fun ls => logits :: ls))
      else ([], .error (.valueError (unknownExtractionMsg lm2_out)))
    else ([], .error (.valueError (unknownExtractionMsg lm1_out)))

/-- `BiAdaptiveModel.forward_lm`: run both encoders on the batch and keep
only the pooled outputs. -/
def BiAdaptiveModel.forward_lm (m : BiAdaptiveModel) (kwargs : Val) : Val × Val :=
  ((m.language_model1.forward kwargs).1, (m.language_model2.forward kwargs).1)

/-- `BiAdaptiveModel.forward`, instrumented with the list of head
positions whose forward pass executed.  With at least one head the logits
of each head are collected into `all_logits`; with zero heads the pair of
raw pooled outputs is appended to the (empty) `all_logits` list, so the
function returns a one-element list holding that pair. -/
def BiAdaptiveModel.forwardTraced (m : BiAdaptiveModel) (kwargs : Val) :
    List Nat × Except FarmError Val :=
  let p := m.forward_lm kwargs
  if m.prediction_heads.length > 0 then
    let r := runHeads m.dropout1 m.dropout2 p.1 p.2
      (zip3 m.prediction_heads m.lm1_output_types m.lm2_output_types) 0
    (r.1, r.2.map Val.list)
  else
    ([], .ok (Val.list [Val.pair p.1 p.2]))

/-- `BiAdaptiveModel.forward`: the returned value of the instrumented
forward pass. -/
def BiAdaptiveModel.forward (m : BiAdaptiveModel) (kwargs : Val) : Except FarmError Val :=
  (m.forwardTraced kwargs).2

/-- Python iteration over a value, as in `zip(self.prediction_heads,
logits)`: lists and tuples are iterable, anything else raises
`TypeError`. -/
def pyIterList : Val → Except FarmError (List Val)
  | .list xs => .ok xs
  | .pair a b => .ok [a, b]
  | _ => .error (.typeError "object is not iterable")

/-- The message of the failed `assert hasattr(head, "label_tensor_name")`
in `BiAdaptiveModel.logits_to_loss_per_head`, naming the head's task. -/
def headNotConnectedMsg (task_name : String) : String :=
  "Label_tensor_names are missing inside the " ++ task_name ++ " Prediction Head."

/-- The loop of `BiAdaptiveModel.logits_to_loss_per_head` over
`zip(self.prediction_heads, logits)`: each head is first checked for the
`label_tensor_name` attribute (the head must have been connected to a
processor) and only then asked for its per-sample loss. -/
def lossesLoop : List (PredictionHead × Val) → Except FarmError (List TensorVal)
  | [] => .ok []
  | (head, logits_for_one_head) :: rest =>
    if (head.label_tensor_name).isSome then
      (lossesLoop rest).map (fun ls => head.logits_to_loss logits_for_one_head :: ls)
    else .error (.assertionError (headNotConnectedMsg head.task_name))

/-- `BiAdaptiveModel.logits_to_loss_per_head`. -/
def BiAdaptiveModel.logits_to_loss_per_head (m : BiAdaptiveModel) (logits : Val) :
    Except FarmError (List TensorVal) :=
  match pyIterList logits with
  | .error e => .error e
  | .ok ls => lossesLoop (m.prediction_heads.zip ls)

/-- `BiAdaptiveModel.logits_to_loss`: collect the per-head per-sample
losses and reduce them with the configured aggregation function. -/
def BiAdaptiveModel.logits_to_loss (m : BiAdaptiveModel) (logits : Val)
    (global_step : Option Nat) (kwargs : Val) : Except FarmError TensorVal :=
  match m.logits_to_loss_per_head logits with
  | .error e => .error e
  | .ok all_losses => .ok (m.loss_aggregation_fn all_losses global_step kwargs)

/-- `BiAdaptiveModel.get_language`. -/
def BiAdaptiveModel.get_language (m : BiAdaptiveModel) : String × String :=
  (m.language_model1.language, m.language_model2.language)

/-- Python `v[0]` on an embedded value: lists and tuples are
subscriptable (an empty list raises IndexError), anything else raises
TypeError. -/
def pyGetIndex0 : Val → Except FarmError Val
  | .list (x :: _) => .ok x
  | .list [] => .error (.indexError "list index out of range")
  | .pair a _ => .ok a
  | _ => .error (.typeError "object is not subscriptable")

/-- A sample basket as consumed by the multi-head branch of
`formatted_preds` (`kwargs["baskets"]`, each exposing `.samples`). -/
structure Basket where
  samples : List Val

/-- The keyword arguments of `BaseBiAdaptiveModel.formatted_preds` that
the source reads: the optional precomputed `preds` and the optional
`baskets`. -/
structure Kwargs where
  preds : Option Val
  baskets : Option (List Basket)

/-- Modelled from the spec: `stack` from `farm.utils` (imported by the
source but missing from src/).  Per section 4.1 the multi-head branch
requires `extra` to contain one precomputed prediction set per head,
pre-split per head via a head-aligned transpose (stack by head index):
the per-sample rows are transposed into one prediction list per head. -/
def stack (preds : Val) : List Val :=
  match preds with
  | .list rows =>
    (List.transpose (rows.map (fun r => ((pyIterList r).toOption).getD []))).map Val.list
  | _ => []

/-- The flattening of an externally supplied `kwargs["preds"]` performed
by the single-head branch of `formatted_preds`:
`temp = [y[0] for y in preds]` followed by
`preds_flat = [item for sublist in temp for item in sublist]`.  Only the
initial `kwargs["preds"]` lookup is inside the `try/except KeyError`, so
failures of the comprehensions themselves propagate. -/
def flattenPreds : Option Val → Except FarmError Val
  | some preds =>
    match pyIterList preds with
    | .error e => .error e
    | .ok ys =>
      match ys.mapM pyGetIndex0 with
      | .error e => .error e
      | .ok temp =>
        match temp.mapM pyIterList with
        | .error e => .error e
        | .ok nested => .ok (Val.list nested.flatten)
  | none => .ok Val.none

/-- The per-head result buckets (`preds_final`) built by the multi-head
branch of `formatted_preds`: `preds_final` starts as `n_heads` empty
buckets; the loop over `zip(self.prediction_heads, preds_for_heads,
logits_for_heads)` appends one formatted result into bucket `i` for every
zipped position `i` (per-head logits are all `None` in this branch, and
`kwargs["samples"]` is the flattened basket samples); positions beyond
the zip length keep their initial empty bucket. -/
def headBuckets (prediction_heads : List PredictionHead) (preds : Val)
    (baskets : List Basket) : List (List Val) :=
  let n_heads := prediction_heads.length
  let samples := baskets.flatMap (fun b => b.samples)
  let z := zip3 prediction_heads (stack preds) (List.replicate n_heads Val.none)
  z.map (fun x => [x.1.formatted_preds x.2.2 x.2.1 (Val.list samples)]) ++
    List.replicate (n_heads - z.length) []

/-- `BaseBiAdaptiveModel.formatted_preds`, branching on the head count.

With zero heads the branch computes the two encoders' formatted
predictions into the locals `preds1_final` and `preds2_final`, but the
function's final statement returns the local `preds_final`, which this
branch never assigns, so Python raises `UnboundLocalError` there.

With one head, an externally supplied `kwargs["preds"]` is flattened one
level (`temp = [y[0] for y in preds]` followed by a flatten of `temp`)
and otherwise `preds` is set to `None`; the single head is invoked on
`logits[0]`, and its result contributes to `preds_final` only when it is
a list (extended) or a dict with a "predictions" key (appended).

With more than one head, `kwargs["preds"]` (required) is re-grouped per
head by `stack`, per-head logits are all `None`, the basket samples are
flattened into `kwargs["samples"]`, and each head's formatted result is
appended into its own bucket of `preds_final`.  The next statement,
`merge_fn = pick_single_fn(self.prediction_heads, "merge_formatted_preds")`
(line 127), then reads the global name `pick_single_fn`, which the module
neither defines nor imports (line 18 imports only `MLFlowLogger as
MlLogger` and `stack` from `farm.utils`), so every multi-head call raises
`NameError` there and neither the merged result nor the bucket list is
ever returned. -/
def BaseBiAdaptiveModel.formatted_preds (prediction_heads : List PredictionHead)
    (logits : Val) (language_model1 language_model2 : LanguageModel)
    (kwargs : Kwargs) : Except FarmError Val :=
  match prediction_heads with
  | [] =>
    let preds1_final := language_model1.formatted_preds logits
    let preds2_final := language_model2.formatted_preds logits
    .error (.unboundLocalError "preds_final")
  | [head] =>
    match flattenPreds kwargs.preds with
    | .error e => .error e
    | .ok preds_kw =>
      match pyGetIndex0 logits with
      | .error e => .error e
      | .ok logits_for_head =>
        match head.formatted_preds logits_for_head preds_kw Val.none with
        | .list xs => .ok (Val.list xs)
        | .dict d =>
          if d.any (fun kv => kv.1 == "predictions") then .ok (Val.list [Val.dict d])
          else .ok (Val.list [])
        | _ => .ok (Val.list [])
  | _ =>
    match kwargs.preds with
    | none => .error (.keyError "preds")
    | some preds =>
      match kwargs.baskets with
      | none => .error (.keyError "baskets")
      | some baskets =>
        let preds_final := headBuckets prediction_heads preds baskets
        .error (.nameError "pick_single_fn")

/-- The decimal digit characters, indexed by digit value. -/
def digitChar (d : Nat) : Char :=
  (['0','1','2','3','4','5','6','7','8','9'].getD d ' ')

/-- The inverse digit lookup used to prove `digitChar` injective on
digits. -/
def invDigit (c : Char) : Nat :=
  (['0','1','2','3','4','5','6','7','8','9'].indexOf c)

/-- The most-significant-first decimal digit characters of a positive
number, with explicit fuel so that the definition is structural (any fuel
of at least `n` yields the digits of `n`). -/
def decDigitsAux : Nat → Nat → List Char
  | 0, _ => []
  | fuel + 1, n => if n = 0 then [] else decDigitsAux fuel (n / 10) ++ [digitChar (n % 10)]

/-- The decimal representation of a natural number (Python `str(i)` /
an f-string placeholder `{i}`). -/
def decRepr (n : Nat) : String :=
  if n = 0 then "0" else String.mk (decDigitsAux (n + 1) n)

/-- The filename `prediction_head_<i>_config.json` under which
`PredictionHead.save(save_dir, i)` serializes the config of the head at
position `i` (directory layout contract, spec section 6). -/
def phConfigFileName (i : Nat) : String :=
  "prediction_head_" ++ decRepr i ++ "_config.json"

/-- Python string comparison on the underlying character lists:
code-point lexicographic order (`a <= b`). -/
def pyStrLeChars : List Char → List Char → Bool
  | [], _ => true
  | _ :: _, [] => false
  | a :: as, b :: bs => if a = b then pyStrLeChars as bs else decide (a < b)

/-- Python string order `a <= b`. -/
def pyStrLe (a b : String) : Prop := pyStrLeChars a.data b.data = true

instance : DecidableRel pyStrLe := fun a b => by
  unfold pyStrLe; infer_instance

/-- Python `list.sort()` on filenames: the ascending reordering under the
code-point lexicographic order.  The filenames sorted here are pairwise
distinct, so any sorting algorithm produces the Python result; insertion
sort is used. -/
def pySort (l : List String) : List String := List.insertionSort pyStrLe l

/-- Python `needle in hay` on strings: substring containment. -/
def strContains (hay needle : String) : Bool :=
  decide (needle.data <:+: hay.data)

/-- The content of a file in a modelled load/save directory.  Head
configs and the encoder artifacts carry the values they deserialize to
(`PredictionHead.save`/`load` and `LanguageModel.save`/`load` are
repository code not under src/ and are modelled from the spec as opaque
faithful persistence). -/
inductive FileContent where
  | headConfig : PredictionHead → FileContent
  | onnxModel : FileContent
  | modelConfig : Val → FileContent
  | other : FileContent

/-- A load/save directory: the top-level regular files plus the `lm1`
and `lm2` encoder subdirectories. -/
structure FSDir where
  files : List (String × FileContent)
  lm1 : Option LanguageModel
  lm2 : Option LanguageModel

/-- `(Path(load_dir) / name).is_file()` for a top-level filename. -/
def FSDir.hasFile (d : FSDir) (name : String) : Bool :=
  d.files.any (fun p => p.1 == name)

/-- `BiAdaptiveModel.save`: write both encoders under the `lm1` and `lm2`
subdirectories and serialize each head indexed by its position.
`LanguageModel.save` and `PredictionHead.save` are repository code not
under src/; modelled from the spec (sections 4.1 and 6):
`PredictionHead.save(save_dir, i)` writes the config file
`prediction_head_<i>_config.json` (the separately written weights payload
`prediction_head_<i>.<weights-ext>` is omitted from the model: its name
does not contain "config.json", so the config discovery in
`_get_prediction_head_files` never selects it, and `load` with
`load_weights=False` never reads it); `LanguageModel.save` writes an
opaque artifact that `LanguageModel.load` restores. -/
def BiAdaptiveModel.save (m : BiAdaptiveModel) : FSDir :=
  ⟨m.prediction_heads.enum.map
      (fun ih => (phConfigFileName ih.1, FileContent.headConfig ih.2)),
   some m.language_model1, some m.language_model2⟩

/-- `BaseBiAdaptiveModel._get_prediction_head_files`: list the directory,
keep the filenames containing both "config.json" and "prediction_head" as
substrings, and sort them ("sort them to get correct order in case of
multiple prediction heads"). -/
def get_prediction_head_files (d : FSDir) : List String :=
  pySort ((d.files.map Prod.fst).filter
    (fun f => strContains f "config.json" && strContains f "prediction_head"))

/-- Modelled from the spec: `PredictionHead.load(config_file, strict,
load_weights=False)` (prediction_head.py is not under src/) reconstructs
the head serialized in the given config file. -/
def PredictionHead.loadFile (files : List (String × FileContent)) (name : String) :
    Except FarmError PredictionHead :=
  match files.lookup name with
  | some (.headConfig h) => .ok h
  | _ => .error (.valueError ("No prediction head config in " ++ name))

/-- The head-loading loop shared by `BiAdaptiveModel.load`: load each
discovered config file in order. -/
def loadHeads (files : List (String × FileContent)) :
    List String → Except FarmError (List PredictionHead)
  | [] => .ok []
  | f :: rest =>
    match PredictionHead.loadFile files f with
    | .error e => .error e
    | .ok h => (loadHeads files rest).map (fun hs => h :: hs)

/-- Modelled from the spec: `LanguageModel.load` (language_model.py is not
under src/) restores the opaque encoder artifact saved in the given
subdirectory, failing if it is absent. -/
def LanguageModel.loadDir : Option LanguageModel → Except FarmError LanguageModel
  | some lm => .ok lm
  | none => .error (.valueError "language model artifacts missing")

/-- `BiAdaptiveModel.load(load_dir, device, ...)`: load both encoders from
their subdirectories, discover and load the prediction-head config files,
and construct the model via `cls(language_model1, language_model2,
prediction_heads, 0.1, device)` — so the extraction-mode lists and the
loss aggregation function take their defaults, and the two freshly
created dropout modules are represented by identity functions. -/
def BiAdaptiveModel.load (d : FSDir) (device : String) :
    Except FarmError BiAdaptiveModel :=
  match LanguageModel.loadDir d.lm1 with
  | .error e => .error e
  | .ok language_model1 =>
    match LanguageModel.loadDir d.lm2 with
    | .error e => .error e
    | .ok language_model2 =>
      match loadHeads d.files (get_prediction_head_files d) with
      | .error e => .error e
      | .ok prediction_heads =>
        .ok (BiAdaptiveModel.init language_model1 language_model2 prediction_heads
          device (fun v => v) (fun v => v) defaultOutputTypes defaultOutputTypes none)

/-- The inference-only ONNX backend state. -/
structure ONNXBiAdaptiveModel where
  prediction_heads : List PredictionHead
  language : Val
  device : String

/-- The `TypeError` message raised when `for config_file in
ph_config_files` iterates over a single `Path` value. -/
def pathNotIterableMsg : String := "argument of type PosixPath is not iterable"

/-- The `ValueError` message raised when `_, ph_config_files = <list>`
unpacks a list whose length is not exactly two. -/
def unpackMsg : String := "cannot unpack the prediction head file list into two variables"

/-- `ONNXBiAdaptiveModel.load(load_dir, device)`: create the onnxruntime
session from `model.onnx` (external; it fails if the file is absent),
then run `_, ph_config_files = cls._get_prediction_head_files(load_dir,
strict=False)`: the single list returned is destructured into two
variables, which raises `ValueError` unless the list has exactly two
elements; with exactly two elements `ph_config_files` is bound to the
second path and the following `for config_file in ph_config_files`
iterates over a single `Path` value, raising `TypeError`.  The
`model_config.json` read and the final construction are unreachable. -/
def ONNXBiAdaptiveModel.load (d : FSDir) (device : String) :
    Except FarmError ONNXBiAdaptiveModel :=
  if d.hasFile "model.onnx" then
    match get_prediction_head_files d with
    | [_, _] => .error (.typeError pathNotIterableMsg)
    | _ => .error (.valueError unpackMsg)
  else .error (.valueError "model.onnx not found")

/-- The result of the polymorphic `BaseBiAdaptiveModel.load`: one of the
two execution backend variants. -/
inductive LoadedModel where
  | trainable : BiAdaptiveModel → LoadedModel
  | frozen : ONNXBiAdaptiveModel → LoadedModel

/-- Whether a loaded model is the frozen (ONNX) backend. -/
def LoadedModel.isFrozen : LoadedModel → Bool
  | .trainable _ => false
  | .frozen _ => true

/-- `BaseBiAdaptiveModel.load(**kwargs)`: dispatch on the presence of the
`model.onnx` marker file in the load directory, selecting the frozen
(`ONNXBiAdaptiveModel`) or trainable (`BiAdaptiveModel`) backend. -/
def BaseBiAdaptiveModel.load (d : FSDir) (device : String) :
    Except FarmError LoadedModel :=
  if d.hasFile "model.onnx" then
    (ONNXBiAdaptiveModel.load d device).map LoadedModel.frozen
  else
    (BiAdaptiveModel.load d device).map LoadedModel.trainable

/-! ## Concrete fixtures used by witnesses and counterexamples -/

/-- A concrete prediction-head fixture: `connected` decides whether
`label_tensor_name` is populated, `loss` is the per-sample loss vector the
head reports for any logits, `merge` is the optional
`merge_formatted_preds` capability. -/
def mkHead (task : String) (connected : Bool) (loss : List Int)
    (merge : Option (List (List Val) → Val)) : PredictionHead :=
  ⟨task, if connected then some "label_ids" else Option.none, ["yes", "no"], some "acc",
   fun o1 o2 => Val.pair o1 o2,
   fun _ => TensorVal.vec loss,
   fun l => l,
   fun l p s => Val.list [Val.str task, l, p, s],
   merge, "per_sequence"⟩

/-- The default head used by positional `getD` lookups in lemmas. -/
def dummyHead : PredictionHead := mkHead "dummy" false [] Option.none

def headA : PredictionHead := mkHead "taskA" true [1, 2, 3] Option.none

def headB : PredictionHead := mkHead "taskB" true [4, 5, 6] Option.none

def headU : PredictionHead := mkHead "taskU" false [0] Option.none

/-- A concrete `merge_formatted_preds` capability fixture. -/
def mergeFnM : List (List Val) → Val :=
  fun bs => Val.pair (Val.str "merged") (Val.list (bs.map Val.list))

def headM : PredictionHead := mkHead "taskM" true [7] (some mergeFnM)

/-- A concrete encoder fixture returning a fixed pooled output. -/
def mkLM (nm lang : String) (pooled : Val) : LanguageModel :=
  ⟨nm, lang, 768, fun _ => (pooled, Val.none), fun l => Val.pair (Val.str nm) l⟩

def lmA : LanguageModel := mkLM "lm-a" "english" (Val.int 11)

def lmB : LanguageModel := mkLM "lm-b" "german" (Val.int 22)

example : decRepr 0 = "0" := by decide
example : decRepr 10 = "10" := by decide
example : decRepr 137 = "137" := by decide
example : phConfigFileName 2 = "prediction_head_2_config.json" := by decide
example : strContains (phConfigFileName 2) "config.json" = true := by decide
example : strContains "prediction_head_2.bin" "config.json" = false := by decide
example : pySort ["b", "a10", "a2"] = ["a10", "a2", "b"] := by decide

/-! ## C2: constructor extraction-mode defaults -/

/-- A model built with two heads and every optional constructor argument
at its default. -/
def c2Model : BiAdaptiveModel :=
  BiAdaptiveModel.init lmA lmB [headA, headB] "cpu" id id defaultOutputTypes
    defaultOutputTypes Option.none

/-- C2 counterexample: a freshly constructed model with two heads and the
extraction-mode arguments left at their defaults violates the claimed
invariant: both mode lists have length 1 while there are 2 heads. -/
theorem c2_counterexample :
    ¬ (c2Model.lm1_output_types.length = c2Model.prediction_heads.length ∧
       c2Model.lm2_output_types.length = c2Model.prediction_heads.length) := by
  intro h
  exact absurd h.1 (by decide)

/-- C2 (amended): with the extraction-mode arguments left at their
defaults, both stored mode lists are the fixed singleton
`["per_sequence"]`, independent of the head count; consequently the
invariant `len(lm1_output_types) = len(lm2_output_types) = len(heads)`
holds for a freshly constructed model if and only if it has exactly one
head. -/
theorem c2_default_extraction_modes (lm1 lm2 : LanguageModel)
    (heads : List PredictionHead) (device : String) (d1 d2 : Val → Val) :
    (BiAdaptiveModel.init lm1 lm2 heads device d1 d2 defaultOutputTypes
        defaultOutputTypes Option.none).lm1_output_types = ["per_sequence"] ∧
    (BiAdaptiveModel.init lm1 lm2 heads device d1 d2 defaultOutputTypes
        defaultOutputTypes Option.none).lm2_output_types = ["per_sequence"] ∧
    (((BiAdaptiveModel.init lm1 lm2 heads device d1 d2 defaultOutputTypes
          defaultOutputTypes Option.none).lm1_output_types.length = heads.length ∧
      (BiAdaptiveModel.init lm1 lm2 heads device d1 d2 defaultOutputTypes
          defaultOutputTypes Option.none).lm2_output_types.length = heads.length) ↔
      heads.length = 1) := by
  refine ⟨rfl, rfl, ?_⟩
  show ((1 = heads.length) ∧ (1 = heads.length)) ↔ heads.length = 1
  omega

/-! ## C5: formatted_preds with zero heads -/

/-- C5: with zero prediction heads, `formatted_preds` computes both
encoders' own formatted predictions but then executes `return preds_final`
with the local `preds_final` never assigned in this branch, so the call
raises `UnboundLocalError` instead of returning the encoders' results. -/
theorem c5_zero_heads_unbound_local (logits : Val)
    (language_model1 language_model2 : LanguageModel) (kwargs : Kwargs) :
    BaseBiAdaptiveModel.formatted_preds [] logits language_model1 language_model2
        kwargs = .error (.unboundLocalError "preds_final") := rfl

/-! ## C9 and C10: backend selection and the broken frozen-backend load -/

/-- `ONNXBiAdaptiveModel.load` raises on every input directory: the
unpacking `_, ph_config_files = cls._get_prediction_head_files(load_dir)`
raises `ValueError` unless the returned list has exactly two entries, and
with exactly two entries the loop `for config_file in ph_config_files`
iterates over a single `Path`, raising `TypeError` (and the onnxruntime
session construction raises if `model.onnx` is absent). -/
theorem onnxLoad_isError (d : FSDir) (device : String) :
    ∃ e, ONNXBiAdaptiveModel.load d device = .error e := by
  unfold ONNXBiAdaptiveModel.load
  by_cases h : d.hasFile "model.onnx"
  · rw [if_pos h]
    rcases get_prediction_head_files d with _ | ⟨a, _ | ⟨b, _ | ⟨c, t⟩⟩⟩
    · exact ⟨_, rfl⟩
    · exact ⟨_, rfl⟩
    · exact ⟨_, rfl⟩
    · exact ⟨_, rfl⟩
  · rw [if_neg h]
    exact ⟨_, rfl⟩

/-- C9: the polymorphic `BaseBiAdaptiveModel.load` dispatches to the
frozen backend (`ONNXBiAdaptiveModel`) exactly when the directory holds
the `model.onnx` marker file — regardless of any head config files also
present — and otherwise dispatches to the trainable backend
(`BiAdaptiveModel`); accordingly, any successfully loaded model is frozen
if and only if the marker is present. -/
theorem c9_backend_selection (d : FSDir) (device : String) :
    (d.hasFile "model.onnx" = true →
      BaseBiAdaptiveModel.load d device =
        (ONNXBiAdaptiveModel.load d device).map LoadedModel.frozen) ∧
    (d.hasFile "model.onnx" = false →
      BaseBiAdaptiveModel.load d device =
        (BiAdaptiveModel.load d device).map LoadedModel.trainable) ∧
    (∀ lm, BaseBiAdaptiveModel.load d device = .ok lm →
      lm.isFrozen = d.hasFile "model.onnx") := by
  refine ⟨fun h => by simp [BaseBiAdaptiveModel.load, h], fun h => by
    simp [BaseBiAdaptiveModel.load, h], fun lm hlm => ?_⟩
  by_cases h : d.hasFile "model.onnx"
  · exfalso
    rw [BaseBiAdaptiveModel.load, if_pos h] at hlm
    obtain ⟨e, he⟩ := onnxLoad_isError d device
    rw [he] at hlm
    exact Except.noConfusion hlm
  · rw [BaseBiAdaptiveModel.load, if_neg h] at hlm
    rcases hb : BiAdaptiveModel.load d device with e | mt
    · rw [hb] at hlm
      exact Except.noConfusion hlm
    · rw [hb] at hlm
      have : LoadedModel.trainable mt = lm := Except.ok.inj hlm
      rw [← this]
      simp [LoadedModel.isFrozen, h]

/-- A directory holding the frozen-backend marker `model.onnx` together
with two trainable-format prediction-head config files. -/
def c9Dir : FSDir :=
  ⟨[("prediction_head_0_config.json", .headConfig headA),
    ("prediction_head_1_config.json", .headConfig headB),
    ("model.onnx", .onnxModel)], some lmA, some lmB⟩

/-- C9 witness: on a concrete directory holding both the marker file and
trainable-format head configs, `load` dispatches to the frozen backend. -/
theorem c9_witness :
    c9Dir.hasFile "model.onnx" = true ∧
    BaseBiAdaptiveModel.load c9Dir "cpu" =
      (ONNXBiAdaptiveModel.load c9Dir "cpu").map LoadedModel.frozen :=
  ⟨rfl, (c9_backend_selection c9Dir "cpu").1 rfl⟩

/-- C10: for every directory carrying the `model.onnx` marker,
`ONNXBiAdaptiveModel.load` never returns an instance: with exactly two
discovered head config files the iteration over a single `Path` raises
`TypeError`, and with any other count the destructuring
`_, ph_config_files = <single list>` raises `ValueError`. -/
theorem c10_onnx_load_always_fails (d : FSDir) (device : String)
    (h : d.hasFile "model.onnx" = true) :
    (∀ m, ONNXBiAdaptiveModel.load d device ≠ .ok m) ∧
    ((get_prediction_head_files d).length = 2 →
      ONNXBiAdaptiveModel.load d device = .error (.typeError pathNotIterableMsg)) ∧
    ((get_prediction_head_files d).length ≠ 2 →
      ONNXBiAdaptiveModel.load d device = .error (.valueError unpackMsg)) := by
  refine ⟨fun m hm => ?_, fun h2 => ?_, fun hn2 => ?_⟩
  · obtain ⟨e, he⟩ := onnxLoad_isError d device
    rw [he] at hm
    exact Except.noConfusion hm
  · obtain ⟨a, b, hab⟩ := List.length_eq_two.mp h2
    rw [ONNXBiAdaptiveModel.load, if_pos h, hab]
  · rw [ONNXBiAdaptiveModel.load, if_pos h]
    rcases hl : get_prediction_head_files d with _ | ⟨a, _ | ⟨b, _ | ⟨c, t⟩⟩⟩
    · rfl
    · rfl
    · exact absurd (by rw [hl]; rfl) hn2
    · rfl

/-- C10 witness: on a concrete marker directory with exactly two head
config files, the frozen-backend load raises the iteration `TypeError`. -/
theorem c10_witness :
    c9Dir.hasFile "model.onnx" = true ∧
    (get_prediction_head_files c9Dir).length = 2 ∧
    ONNXBiAdaptiveModel.load c9Dir "cpu" = .error (.typeError pathNotIterableMsg) := by
  refine ⟨rfl, by decide, ?_⟩
  exact (c10_onnx_load_always_fails c9Dir "cpu" rfl).2.1 (by decide)

/-! ## C3 and C7: the loss path -/

/-- If every zipped head carries `label_tensor_name`, the loss loop
collects each head's per-sample loss, in head order. -/
theorem lossesLoop_ok (z : List (PredictionHead × Val))
    (hconn : ∀ hl ∈ z, hl.1.label_tensor_name.isSome = true) :
    lossesLoop z = .ok (z.map (fun hl => hl.1.logits_to_loss hl.2)) := by
  induction z with
  | nil => rfl
  | cons hd tl ih =>
    obtain ⟨h0, l0⟩ := hd
    have h1 : h0.label_tensor_name.isSome = true :=
      hconn (h0, l0) (List.mem_cons_self _ _)
    have h2 := ih (fun hl hm => hconn hl (List.mem_cons_of_mem _ hm))
    simp [lossesLoop, h1, h2, Except.map]

/-- If some zipped head lacks `label_tensor_name`, the loss loop raises
the connection assertion for such a head (the first one). -/
theorem lossesLoop_error (z : List (PredictionHead × Val))
    (hun : ∃ hl ∈ z, hl.1.label_tensor_name = Option.none) :
    ∃ hl ∈ z, hl.1.label_tensor_name = Option.none ∧
      lossesLoop z = .error (.assertionError (headNotConnectedMsg hl.1.task_name)) := by
  induction z with
  | nil =>
    obtain ⟨hl, hm, _⟩ := hun
    exact absurd hm (List.not_mem_nil hl)
  | cons hd tl ih =>
    obtain ⟨h0, l0⟩ := hd
    by_cases hc : h0.label_tensor_name.isSome = true
    · obtain ⟨hl, hm, hnone⟩ := hun
      rcases List.mem_cons.mp hm with heq | hm'
      · exfalso
        rw [heq] at hnone
        rw [hnone] at hc
        exact Bool.noConfusion hc
      · obtain ⟨hl', hm'', hnone', herr⟩ := ih ⟨hl, hm', hnone⟩
        exact ⟨hl', List.mem_cons_of_mem _ hm'', hnone',
          by simp [lossesLoop, hc, herr, Except.map]⟩
    · have hnone : h0.label_tensor_name = Option.none :=
        Option.not_isSome_iff_eq_none.mp hc
      exact ⟨(h0, l0), List.mem_cons_self _ _, hnone, by simp [lossesLoop, hc]⟩

/-- C7: calling `logits_to_loss` while some head lacks the
`label_tensor_name` attribute (that is, before
`connect_heads_with_processor` has populated the heads) raises the
`HeadNotConnected` assertion naming such a head's task instead of
computing a loss — provided each head is paired with a logits entry, as
`forward` guarantees. -/
theorem c7_unconnected_head_loss (m : BiAdaptiveModel) (logits : List Val)
    (global_step : Option Nat) (kwargs : Val)
    (hlen : m.prediction_heads.length ≤ logits.length)
    (hun : ∃ h ∈ m.prediction_heads, h.label_tensor_name = Option.none) :
    ∃ h ∈ m.prediction_heads, h.label_tensor_name = Option.none ∧
      m.logits_to_loss (Val.list logits) global_step kwargs =
        .error (.assertionError (headNotConnectedMsg h.task_name)) := by
  obtain ⟨h, hm, hnone⟩ := hun
  obtain ⟨i, hi, hgi⟩ := List.mem_iff_getElem.mp hm
  have hiz : i < (m.prediction_heads.zip logits).length := by
    rw [List.length_zip]
    omega
  have hpair : (h, logits.get ⟨i, by omega⟩) ∈ m.prediction_heads.zip logits := by
    have hmem := List.getElem_mem hiz
    rw [List.getElem_zip] at hmem
    rw [← hgi]
    simpa [List.get_eq_getElem] using hmem
  obtain ⟨hl', hm', hnone', herr⟩ :=
    lossesLoop_error (m.prediction_heads.zip logits) ⟨_, hpair, hnone⟩
  refine ⟨hl'.1, (List.of_mem_zip hm').1, hnone', ?_⟩
  simp [BiAdaptiveModel.logits_to_loss, BiAdaptiveModel.logits_to_loss_per_head,
    pyIterList, herr]

/-- A single-head model whose head was never connected to a processor. -/
def c7Model : BiAdaptiveModel :=
  BiAdaptiveModel.init lmA lmB [headU] "cpu" id id defaultOutputTypes
    defaultOutputTypes Option.none

/-- C7 witness: the concrete unconnected single-head model raises the
connection assertion naming its task. -/
theorem c7_witness :
    c7Model.prediction_heads.length ≤ 1 ∧
    c7Model.logits_to_loss (Val.list [Val.int 0]) Option.none Val.none =
      .error (.assertionError (headNotConnectedMsg "taskU")) := by
  refine ⟨by decide, ?_⟩
  obtain ⟨h, hm, hnone, herr⟩ := c7_unconnected_head_loss c7Model [Val.int 0]
    Option.none Val.none (by decide) ⟨headU, List.mem_singleton_self headU, rfl⟩
  have : h = headU := List.mem_singleton.mp hm
  rw [this] at herr
  exact herr

/-- The element-wise per-sample sum of a family of per-head loss vectors:
entry `j` is the sum over the heads of their `j`-th per-sample loss (the
spec's description of the default aggregation). -/
def elementwiseSum (batch_size : Nat) (vs : List (List Int)) : List Int :=
  (List.range batch_size).map (fun j => (vs.map (fun v => v.getD j 0)).sum)

/-- Reading a list back off its positional `getD` lookups. -/
theorem map_range_getD (acc : List Int) (B : Nat) (hB : acc.length = B) :
    (List.range B).map (fun j => acc.getD j 0) = acc := by
  apply List.ext_getElem
  · simp [hB]
  · intro i h1 h2
    simp only [List.getElem_map, List.getElem_range]
    rw [List.getD_eq_getElem _ _ (by omega)]

/-- Folding `tensorAdd` from a vector accumulator over equal-length loss
vectors computes per-sample sums. -/
theorem foldl_tensorAdd_vec (vs : List (List Int)) :
    ∀ (B : Nat) (acc : List Int), acc.length = B → (∀ v ∈ vs, v.length = B) →
      (vs.map TensorVal.vec).foldl tensorAdd (TensorVal.vec acc) =
        TensorVal.vec ((List.range B).map
          (fun j => acc.getD j 0 + (vs.map (fun v => v.getD j 0)).sum)) := by
  induction vs with
  | nil =>
    intro B acc hacc _
    simp only [List.map_nil, List.foldl_nil, List.sum_nil, add_zero]
    rw [map_range_getD acc B hacc]
  | cons v vs ih =>
    intro B acc hacc hlen
    have hv : v.length = B := hlen v (List.mem_cons_self _ _)
    have hzip : (List.zipWith (fun a b => a + b) acc v).length = B := by
      rw [List.length_zipWith, hacc, hv, Nat.min_self]
    have step : tensorAdd (TensorVal.vec acc) (TensorVal.vec v) =
        TensorVal.vec (List.zipWith (fun a b => a + b) acc v) := rfl
    simp only [List.map_cons, List.foldl_cons, step]
    rw [ih B _ hzip (fun w hw => hlen w (List.mem_cons_of_mem _ hw))]
    congr 1
    apply List.map_congr_left
    intro j hj
    have hjB : j < B := List.mem_range.mp hj
    have hgd : (List.zipWith (fun a b => a + b) acc v).getD j 0 =
        acc.getD j 0 + v.getD j 0 := by
      rw [List.getD_eq_getElem _ _ (by omega), List.getElem_zipWith,
        List.getD_eq_getElem _ _ (by omega), List.getD_eq_getElem _ _ (by omega)]
    rw [hgd]
    simp only [List.map_cons, List.sum_cons]
    exact add_assoc _ _ _

/-- C3: with `loss_aggregation_fn` unset, `logits_to_loss` returns the
element-wise (per-sample) sum of the per-head loss vectors, for any head
count of at least one. -/
theorem c3_default_loss_aggregation (lm1 lm2 : LanguageModel)
    (heads : List PredictionHead) (device : String) (d1 d2 : Val → Val)
    (t1 t2 : StrOrList) (logits : List Val) (global_step : Option Nat)
    (kwargs : Val) (B : Nat) (vs : List (List Int))
    (hne : vs ≠ [])
    (hlen : logits.length = heads.length)
    (hconn : ∀ h ∈ heads, h.label_tensor_name.isSome = true)
    (hvs : (heads.zip logits).map (fun hl => hl.1.logits_to_loss hl.2) =
      vs.map TensorVal.vec)
    (hB : ∀ v ∈ vs, v.length = B) :
    (BiAdaptiveModel.init lm1 lm2 heads device d1 d2 t1 t2
        Option.none).logits_to_loss (Val.list logits) global_step kwargs =
      .ok (TensorVal.vec (elementwiseSum B vs)) := by
  have hloop := lossesLoop_ok (heads.zip logits)
    (fun hl hm => hconn hl.1 (List.of_mem_zip hm).1)
  rw [hvs] at hloop
  have hmodel : (BiAdaptiveModel.init lm1 lm2 heads device d1 d2 t1 t2
      Option.none).logits_to_loss (Val.list logits) global_step kwargs =
      .ok (loss_per_head_sum (vs.map TensorVal.vec) global_step kwargs) := by
    simp [BiAdaptiveModel.logits_to_loss, BiAdaptiveModel.logits_to_loss_per_head,
      pyIterList, BiAdaptiveModel.init, hloop]
  rw [hmodel]
  rcases vs with _ | ⟨v, rest⟩
  · exact absurd rfl hne
  · have hv : v.length = B := hB v (List.mem_cons_self _ _)
    have first : tensorAdd (TensorVal.scalar 0) (TensorVal.vec v) =
        TensorVal.vec v := by
      simp [tensorAdd]
    have : loss_per_head_sum ((v :: rest).map TensorVal.vec) global_step kwargs =
        (rest.map TensorVal.vec).foldl tensorAdd (TensorVal.vec v) := by
      simp only [loss_per_head_sum, List.map_cons, List.foldl_cons, first]
    have ee : elementwiseSum B (v :: rest) = (List.range B).map
        (fun j => v.getD j 0 + (rest.map (fun w => w.getD j 0)).sum) := by
      unfold elementwiseSum
      apply List.map_congr_left
      intro j hj
      simp only [List.map_cons, List.sum_cons]
    rw [this, foldl_tensorAdd_vec rest B v hv
      (fun w hw => hB w (List.mem_cons_of_mem _ hw)), ee]

/-- The two-head model used to evaluate the default aggregation on the
loss vectors `[1,2,3]` and `[4,5,6]`. -/
def c3Model : BiAdaptiveModel :=
  BiAdaptiveModel.init lmA lmB [headA, headB] "cpu" id id defaultOutputTypes
    defaultOutputTypes Option.none

/-- C3 witness: per-head loss vectors `[1,2,3]` and `[4,5,6]` aggregate to
`[5,7,9]`. -/
theorem c3_witness :
    c3Model.logits_to_loss (Val.list [Val.int 0, Val.int 1]) Option.none Val.none =
      .ok (TensorVal.vec [5, 7, 9]) := by
  have h := c3_default_loss_aggregation lmA lmB [headA, headB] "cpu" id id
    defaultOutputTypes defaultOutputTypes [Val.int 0, Val.int 1] Option.none Val.none
    3 [[1, 2, 3], [4, 5, 6]] (by simp) rfl
    (by simp [headA, headB, mkHead]) rfl (by decide)
  have e : elementwiseSum 3 [[1, 2, 3], [4, 5, 6]] = [5, 7, 9] := by decide
  rw [e] at h
  exact h

/-! ## C1 and C6: the forward pass -/

/-- Membership in a triple zip projects to membership in each list. -/
theorem zip3_mem {α β γ : Type} (x : α × β × γ) :
    ∀ (as : List α) (bs : List β) (cs : List γ), x ∈ zip3 as bs cs →
      x.1 ∈ as ∧ x.2.1 ∈ bs ∧ x.2.2 ∈ cs := by
  intro as
  induction as with
  | nil => intro bs cs h; exact absurd h (List.not_mem_nil x)
  | cons a as ih =>
    intro bs cs h
    cases bs with
    | nil => exact absurd h (List.not_mem_nil x)
    | cons b bs =>
      cases cs with
      | nil => exact absurd h (List.not_mem_nil x)
      | cons c cs =>
        rcases List.mem_cons.mp h with heq | hm
        · subst heq
          exact ⟨List.mem_cons_self _ _, List.mem_cons_self _ _, List.mem_cons_self _ _⟩
        · have hr := ih bs cs hm
          exact ⟨List.mem_cons_of_mem _ hr.1, List.mem_cons_of_mem _ hr.2.1,
            List.mem_cons_of_mem _ hr.2.2⟩

/-- Mapping the first projection over a triple zip recovers the first
list when it is the shortest. -/
theorem zip3_map_fst {α β γ δ : Type} (g : α → δ) :
    ∀ (as : List α) (bs : List β) (cs : List γ),
      as.length ≤ bs.length → as.length ≤ cs.length →
      (zip3 as bs cs).map (fun x => g x.1) = as.map g := by
  intro as
  induction as with
  | nil => intro bs cs _ _; cases bs <;> cases cs <;> rfl
  | cons a as ih =>
    intro bs cs h1 h2
    cases bs with
    | nil => simp at h1
    | cons b bs =>
      cases cs with
      | nil => simp at h2
      | cons c cs =>
        simp only [zip3, List.map_cons, List.cons.injEq, true_and]
        exact ih bs cs (by simpa using h1) (by simpa using h2)

/-- A triple zip is never longer than its first list. -/
theorem zip3_length_le {α β γ : Type} :
    ∀ (as : List α) (bs : List β) (cs : List γ), (zip3 as bs cs).length ≤ as.length := by
  intro as
  induction as with
  | nil => intro bs cs; cases bs <;> cases cs <;> simp [zip3]
  | cons a as ih =>
    intro bs cs
    cases bs with
    | nil => simp [zip3]
    | cons b bs =>
      cases cs with
      | nil => simp [zip3]
      | cons c cs => simpa [zip3] using ih bs cs

/-- When every zipped extraction mode is supported, the head loop runs
every head in order and collects its logits. -/
theorem runHeads_ok (d1 d2 : Val → Val) (p1 p2 : Val)
    (z : List (PredictionHead × String × String)) :
    ∀ i, (∀ x ∈ z, extractionModeSupported x.2.1 = true ∧
        extractionModeSupported x.2.2 = true) →
      runHeads d1 d2 p1 p2 z i =
        (List.range' i z.length, .ok (z.map (fun x => x.1.forward (d1 p1) (d2 p2)))) := by
  induction z with
  | nil => intro i _; rfl
  | cons hd tl ih =>
    intro i hv
    obtain ⟨h0, t1, t2⟩ := hd
    have h1 := (hv (h0, t1, t2) (List.mem_cons_self _ _)).1
    have h2 := (hv (h0, t1, t2) (List.mem_cons_self _ _)).2
    have htl := ih (i + 1) (fun x hx => hv x (List.mem_cons_of_mem _ hx))
    simp [runHeads, h1, h2, htl, Except.map, List.range'_succ]

/-- C1 (amended): with per-head extraction-mode lists, every mode
supported and at least one head, `forward` returns one logits entry per
head with the `i`-th entry produced by head `i` on the dropped pooled
outputs; with zero heads, `forward` returns a ONE-ELEMENT sequence whose
sole entry is the 2-tuple of the two raw pooled encoder outputs (the pair
is appended to the otherwise empty `all_logits` list, not returned
bare). -/
theorem c1_forward_per_head (m : BiAdaptiveModel) (kwargs : Val) :
    (m.prediction_heads = [] →
      m.forward kwargs = .ok (Val.list
        [Val.pair (m.forward_lm kwargs).1 (m.forward_lm kwargs).2])) ∧
    (m.prediction_heads ≠ [] →
      m.lm1_output_types.length = m.prediction_heads.length →
      m.lm2_output_types.length = m.prediction_heads.length →
      (∀ t ∈ m.lm1_output_types, extractionModeSupported t = true) →
      (∀ t ∈ m.lm2_output_types, extractionModeSupported t = true) →
      m.forward kwargs = .ok (Val.list (m.prediction_heads.map (fun h =>
        h.forward (m.dropout1 (m.forward_lm kwargs).1)
          (m.dropout2 (m.forward_lm kwargs).2))))) := by
  constructor
  · intro h
    simp [BiAdaptiveModel.forward, BiAdaptiveModel.forwardTraced, h]
  · intro hne h1 h2 hv1 hv2
    have hall : ∀ x ∈ zip3 m.prediction_heads m.lm1_output_types m.lm2_output_types,
        extractionModeSupported x.2.1 = true ∧ extractionModeSupported x.2.2 = true := by
      intro x hx
      have hm := zip3_mem x _ _ _ hx
      exact ⟨hv1 _ hm.2.1, hv2 _ hm.2.2⟩
    have hrun := runHeads_ok m.dropout1 m.dropout2 (m.forward_lm kwargs).1
      (m.forward_lm kwargs).2
      (zip3 m.prediction_heads m.lm1_output_types m.lm2_output_types) 0 hall
    have hmap := zip3_map_fst
      (fun h => h.forward (m.dropout1 (m.forward_lm kwargs).1)
        (m.dropout2 (m.forward_lm kwargs).2))
      m.prediction_heads m.lm1_output_types m.lm2_output_types
      (le_of_eq h1.symm) (le_of_eq h2.symm)
    have hlen0 : 0 < m.prediction_heads.length := List.length_pos.mpr hne
    simp [BiAdaptiveModel.forward, BiAdaptiveModel.forwardTraced, hlen0, hrun,
      hmap, Except.map]

/-- A zero-head model used to exhibit the wrapped zero-head return. -/
def c1Model : BiAdaptiveModel :=
  BiAdaptiveModel.init lmA lmB [] "cpu" id id defaultOutputTypes
    defaultOutputTypes Option.none

/-- C1 counterexample: with zero heads, `forward` does not return the
2-tuple of raw pooled outputs unchanged; it returns the one-element list
holding that tuple. -/
theorem c1_counterexample :
    c1Model.forward Val.none = .ok (Val.list [Val.pair (Val.int 11) (Val.int 22)]) ∧
    c1Model.forward Val.none ≠ .ok (Val.pair (Val.int 11) (Val.int 22)) := by
  refine ⟨rfl, fun h => ?_⟩
  have e : c1Model.forward Val.none =
      .ok (Val.list [Val.pair (Val.int 11) (Val.int 22)]) := rfl
  rw [e] at h
  exact Val.noConfusion (Except.ok.inj h)

/-- A two-head model with per-head extraction-mode lists. -/
def c1WModel : BiAdaptiveModel :=
  BiAdaptiveModel.init lmA lmB [headA, headB] "cpu" id id
    (.list ["per_sequence", "per_sequence_continuous"])
    (.list ["per_sequence", "per_sequence"]) Option.none

/-- C1 witness: on a concrete two-head model with per-head mode lists,
`forward` returns the two heads' logits in construction order. -/
theorem c1_witness :
    c1WModel.prediction_heads ≠ [] ∧
    c1WModel.forward Val.none = .ok (Val.list (c1WModel.prediction_heads.map (fun h =>
      h.forward (c1WModel.dropout1 (c1WModel.forward_lm Val.none).1)
        (c1WModel.dropout2 (c1WModel.forward_lm Val.none).2)))) := by
  have hne : c1WModel.prediction_heads ≠ [] := fun h => List.noConfusion h
  exact ⟨hne, (c1_forward_per_head c1WModel Val.none).2 hne rfl rfl
    (by decide) (by decide)⟩

/-- When the zipped modes are all supported up to a first offending
position, the head loop runs exactly the earlier heads and then raises the
`ValueError` naming the offending mode (checking the encoder-A mode before
the encoder-B mode). -/
theorem runHeads_error (d1 d2 : Val → Val) (p1 p2 : Val) (bad : String)
    (hd0 : PredictionHead × String × String)
    (rest : List (PredictionHead × String × String))
    (hbad : (extractionModeSupported hd0.2.1 = false ∧ bad = hd0.2.1) ∨
      (extractionModeSupported hd0.2.1 = true ∧
        extractionModeSupported hd0.2.2 = false ∧ bad = hd0.2.2)) :
    ∀ (pre : List (PredictionHead × String × String)) (i : Nat),
      (∀ x ∈ pre, extractionModeSupported x.2.1 = true ∧
        extractionModeSupported x.2.2 = true) →
      runHeads d1 d2 p1 p2 (pre ++ hd0 :: rest) i =
        (List.range' i pre.length, .error (.valueError (unknownExtractionMsg bad))) := by
  intro pre
  induction pre with
  | nil =>
    intro i _
    obtain ⟨h0, t1, t2⟩ := hd0
    rcases hbad with ⟨hf, hb⟩ | ⟨ht, hf, hb⟩
    · subst hb
      simp only [List.nil_append, runHeads]
      rw [if_neg (by simp [hf])]
      rfl
    · subst hb
      simp only [List.nil_append, runHeads]
      rw [if_pos (by simp [ht]), if_neg (by simp [hf])]
      rfl
  | cons hd1 tl ih =>
    intro i hv
    obtain ⟨h1, s1, s2⟩ := hd1
    have hv1 := (hv (h1, s1, s2) (List.mem_cons_self _ _)).1
    have hv2 := (hv (h1, s1, s2) (List.mem_cons_self _ _)).2
    have htl := ih (i + 1) (fun x hx => hv x (List.mem_cons_of_mem _ hx))
    simp [runHeads, hv1, hv2, htl, Except.map, List.range'_succ]

/-- C6 (amended): if some head's extraction mode is unsupported (such as
`per_token`), `forward` raises the `ValueError` naming the first offending
mode BEFORE the offending head's own forward pass runs — but the heads
strictly before the offending position have already executed their forward
passes (the trace is exactly `range k` for offending position `k`). -/
theorem c6_unsupported_extraction_mode (m : BiAdaptiveModel) (kwargs : Val)
    (pre : List (PredictionHead × String × String))
    (hd0 : PredictionHead × String × String)
    (rest : List (PredictionHead × String × String)) (bad : String)
    (hz : zip3 m.prediction_heads m.lm1_output_types m.lm2_output_types =
      pre ++ hd0 :: rest)
    (hpre : ∀ x ∈ pre, extractionModeSupported x.2.1 = true ∧
      extractionModeSupported x.2.2 = true)
    (hbad : (extractionModeSupported hd0.2.1 = false ∧ bad = hd0.2.1) ∨
      (extractionModeSupported hd0.2.1 = true ∧
        extractionModeSupported hd0.2.2 = false ∧ bad = hd0.2.2)) :
    (m.forwardTraced kwargs).1 = List.range pre.length ∧
    (m.forwardTraced kwargs).2 = .error (.valueError (unknownExtractionMsg bad)) ∧
    pre.length ∉ (m.forwardTraced kwargs).1 := by
  have hlen0 : 0 < m.prediction_heads.length := by
    rcases hh : m.prediction_heads with _ | ⟨a, t⟩
    · rw [hh] at hz
      have : (zip3 ([] : List PredictionHead) m.lm1_output_types
          m.lm2_output_types) = [] := by
        cases m.lm1_output_types <;> cases m.lm2_output_types <;> rfl
      rw [this] at hz
      exact absurd hz.symm (by simp)
    · simp
  have hrun := runHeads_error m.dropout1 m.dropout2 (m.forward_lm kwargs).1
    (m.forward_lm kwargs).2 bad hd0 rest hbad pre 0 hpre
  have hft : m.forwardTraced kwargs =
      (List.range' 0 pre.length, .error (.valueError (unknownExtractionMsg bad))) := by
    simp [BiAdaptiveModel.forwardTraced, hlen0, hz, hrun, Except.map]
  rw [hft, ← List.range_eq_range']
  refine ⟨rfl, rfl, fun hmem => ?_⟩
  exact absurd (List.mem_range.mp hmem) (lt_irrefl _)

/-- A two-head model whose second head requests the unsupported
`per_token` extraction mode for encoder A. -/
def c6Model : BiAdaptiveModel :=
  BiAdaptiveModel.init lmA lmB [headA, headB] "cpu" id id
    (.list ["per_sequence", "per_token"])
    (.list ["per_sequence", "per_sequence"]) Option.none

/-- C6 counterexample: on the concrete model whose SECOND head requests
`per_token`, `forward` does raise the `ValueError` naming `per_token`,
but only after head 0's forward pass has executed (the trace is `[0]`,
not `[]`), refuting "before any head's forward computation runs". -/
theorem c6_counterexample :
    (c6Model.forwardTraced Val.none).2 =
      .error (.valueError (unknownExtractionMsg "per_token")) ∧
    (c6Model.forwardTraced Val.none).1 ≠ [] := by
  refine ⟨rfl, fun h => ?_⟩
  have e : (c6Model.forwardTraced Val.none).1 = [0] := rfl
  rw [e] at h
  exact List.noConfusion h

/-- C6 witness: on the same concrete model the amended statement computes
the full traced outcome: head 0 ran, the error names `per_token`, and the
offending head 1 never ran. -/
theorem c6_witness :
    c6Model.forwardTraced Val.none =
      (List.range 1, .error (.valueError (unknownExtractionMsg "per_token"))) := by
  have hpre : ∀ x ∈ [((headA : PredictionHead), ("per_sequence" : String),
      ("per_sequence" : String))],
      extractionModeSupported x.2.1 = true ∧ extractionModeSupported x.2.2 = true := by
    intro x hx
    rw [List.mem_singleton] at hx
    subst hx
    exact ⟨rfl, rfl⟩
  obtain ⟨ha, hb, _⟩ := c6_unsupported_extraction_mode c6Model Val.none
    [(headA, "per_sequence", "per_sequence")] (headB, "per_token", "per_sequence")
    [] "per_token" rfl hpre (Or.inl ⟨rfl, rfl⟩)
  exact Prod.ext ha hb

/-! ## C4: formatted_preds with more than one head -/

/-- C4: with more than one head and the required `preds`/`baskets`
present in `kwargs`, `formatted_preds` never returns a merged result or a
per-head bucket list: after building the per-head buckets it evaluates
the undefined global name `pick_single_fn` and raises `NameError`,
whatever the heads' merge capabilities. -/
theorem c4_formatted_preds_name_error (prediction_heads : List PredictionHead)
    (logits : Val) (lm1 lm2 : LanguageModel) (kwargs : Kwargs)
    (pv : Val) (bs : List Basket)
    (hmulti : 1 < prediction_heads.length)
    (hpreds : kwargs.preds = some pv)
    (hbaskets : kwargs.baskets = some bs) :
    BaseBiAdaptiveModel.formatted_preds prediction_heads logits lm1 lm2 kwargs =
      .error (.nameError "pick_single_fn") := by
  rcases prediction_heads with _ | ⟨a, _ | ⟨b, t⟩⟩
  · simp at hmulti
  · simp at hmulti
  · simp [BaseBiAdaptiveModel.formatted_preds, hpreds, hbaskets]

/-- The `kwargs` fixture for the multi-head failing input: one
precomputed per-sample prediction row and one basket. -/
def c4Kwargs : Kwargs :=
  ⟨some (Val.list [Val.list [Val.int 1, Val.int 2]]), some [⟨[Val.str "s1"]⟩]⟩

/-- C4 witness: with two concrete heads of which exactly one exposes
`merge_formatted_preds` — the configuration the claim says should merge —
the call still raises the `NameError`. -/
theorem c4_witness :
    1 < ([headA, headM] : List PredictionHead).length ∧
    BaseBiAdaptiveModel.formatted_preds [headA, headM] Val.none lmA lmB c4Kwargs =
      .error (.nameError "pick_single_fn") := by
  refine ⟨by decide, ?_⟩
  exact c4_formatted_preds_name_error [headA, headM] Val.none lmA lmB c4Kwargs
    (Val.list [Val.list [Val.int 1, Val.int 2]]) [⟨[Val.str "s1"]⟩]
    (by decide) rfl rfl

/-! ## C8: save/load roundtrip -/

/-- `decDigitsAux` with sufficient fuel computes the reversed
`Nat.digits` base 10, rendered as characters. -/
theorem decDigitsAux_eq : ∀ (fuel n : Nat), n ≠ 0 → n ≤ fuel →
    decDigitsAux fuel n = ((Nat.digits 10 n).reverse).map digitChar
  | 0, n, hn, hle => absurd (Nat.le_zero.mp hle) hn
  | fuel + 1, n, hn, hle => by
    rw [decDigitsAux, if_neg hn,
      Nat.digits_def' (by norm_num : 1 < 10) (Nat.pos_of_ne_zero hn),
      List.reverse_cons, List.map_append]
    by_cases h10 : n / 10 = 0
    · rw [h10]
      have hz : ∀ f, decDigitsAux f 0 = [] := by
        intro f
        cases f <;> simp [decDigitsAux]
      rw [hz fuel]
      simp [Nat.digits_zero]
    · have hlt : n / 10 < n := Nat.div_lt_self (Nat.pos_of_ne_zero hn) (by norm_num)
      rw [decDigitsAux_eq fuel (n / 10) h10 (by omega)]
      rfl

/-- `invDigit` inverts `digitChar` on digits. -/
theorem invDigit_digitChar {d : Nat} (hd : d < 10) : invDigit (digitChar d) = d := by
  interval_cases d <;> rfl

/-- `digitChar` is injective on digit lists. -/
theorem digits_map_inj {l1 l2 : List Nat} (h1 : ∀ d ∈ l1, d < 10)
    (h2 : ∀ d ∈ l2, d < 10) (h : l1.map digitChar = l2.map digitChar) :
    l1 = l2 := by
  have e1 : l1.map (fun d => invDigit (digitChar d)) = l1 := by
    rw [List.map_congr_left (fun d hd => invDigit_digitChar (h1 d hd))]
    simp
  have e2 : l2.map (fun d => invDigit (digitChar d)) = l2 := by
    rw [List.map_congr_left (fun d hd => invDigit_digitChar (h2 d hd))]
    simp
  have hmaps := congrArg (List.map invDigit) h
  rw [List.map_map, List.map_map] at hmaps
  rw [← e1, ← e2]
  exact hmaps

/-- The decimal rendering of naturals is injective. -/
theorem decRepr_inj {m n : Nat} (h : decRepr m = decRepr n) : m = n := by
  have digits_bound : ∀ k, ∀ d ∈ ((Nat.digits 10 k).reverse), d < 10 :=
    fun k d hd => Nat.digits_lt_base (by norm_num) (List.mem_reverse.mp hd)
  have zero_case : ∀ k, k ≠ 0 → ("0" : String) =
      String.mk (((Nat.digits 10 k).reverse).map digitChar) → False := by
    intro k hk hcontra
    have hdata : (['0'] : List Char) = ((Nat.digits 10 k).reverse).map digitChar :=
      congrArg String.data hcontra
    have hl : ([0] : List Nat) = (Nat.digits 10 k).reverse := by
      apply digits_map_inj (by simp) (digits_bound k)
      exact hdata
    have hrev : Nat.digits 10 k = [0] := by
      rw [← List.reverse_reverse (Nat.digits 10 k), ← hl]
      rfl
    have hofd := congrArg (Nat.ofDigits 10) hrev
    rw [Nat.ofDigits_digits, Nat.ofDigits_singleton] at hofd
    exact hk hofd
  unfold decRepr at h
  by_cases hm : m = 0 <;> by_cases hn : n = 0
  · rw [hm, hn]
  · exfalso
    rw [if_pos hm, if_neg hn, decDigitsAux_eq (n + 1) n hn (by omega)] at h
    exact zero_case n hn h
  · exfalso
    rw [if_neg hm, if_pos hn, decDigitsAux_eq (m + 1) m hm (by omega)] at h
    exact zero_case m hm h.symm
  · rw [if_neg hm, if_neg hn, decDigitsAux_eq (m + 1) m hm (by omega),
      decDigitsAux_eq (n + 1) n hn (by omega)] at h
    have hdata := congrArg String.data h
    have hrevs := digits_map_inj (digits_bound m) (digits_bound n) hdata
    have hdig : Nat.digits 10 m = Nat.digits 10 n := by
      rw [← List.reverse_reverse (Nat.digits 10 m), hrevs, List.reverse_reverse]
    have hofd := congrArg (Nat.ofDigits 10) hdig
    rw [Nat.ofDigits_digits, Nat.ofDigits_digits] at hofd
    exact hofd

/-- The head-config filenames are injective in the head position. -/
theorem phConfigFileName_inj {i j : Nat}
    (h : phConfigFileName i = phConfigFileName j) : i = j := by
  unfold phConfigFileName at h
  have hd := congrArg String.data h
  simp only [String.data_append] at hd
  have h1 := List.append_cancel_right hd
  have h2 := List.append_cancel_left h1
  exact decRepr_inj (String.ext h2)

/-- Both substring tests of `_get_prediction_head_files` accept every
head-config filename. -/
theorem phConfig_filter_pred (i : Nat) :
    (strContains (phConfigFileName i) "config.json" &&
     strContains (phConfigFileName i) "prediction_head") = true := by
  have h1 : strContains (phConfigFileName i) "config.json" = true := by
    unfold strContains phConfigFileName
    rw [decide_eq_true_iff]
    simp only [String.data_append]
    have base : ("config.json" : String).data <:+: ("_config.json" : String).data := by
      decide
    exact base.trans (List.suffix_append _ _).isInfix
  have h2 : strContains (phConfigFileName i) "prediction_head" = true := by
    unfold strContains phConfigFileName
    rw [decide_eq_true_iff]
    simp only [String.data_append]
    have base : ("prediction_head" : String).data <+:
        ("prediction_head_" : String).data := by
      decide
    rw [List.append_assoc]
    exact (base.trans (List.prefix_append _ _)).isInfix
  rw [h1, h2]
  rfl

/-- The top-level filenames written by `save` are exactly the indexed
head-config filenames. -/
theorem save_head_filenames (m : BiAdaptiveModel) :
    m.save.files.map Prod.fst =
      (List.range m.prediction_heads.length).map phConfigFileName := by
  unfold BiAdaptiveModel.save
  simp only [List.map_map]
  rw [show (Prod.fst ∘ fun ih : Nat × PredictionHead =>
      (phConfigFileName ih.1, FileContent.headConfig ih.2)) =
      (phConfigFileName ∘ Prod.fst) from rfl]
  rw [← List.map_map, List.enum_eq_enumFrom, List.enumFrom_map_fst,
    ← List.range_eq_range']

/-- The config files discovered in a saved directory are the sorted
indexed head-config filenames. -/
theorem save_config_files (m : BiAdaptiveModel) :
    get_prediction_head_files m.save =
      pySort ((List.range m.prediction_heads.length).map phConfigFileName) := by
  unfold get_prediction_head_files
  rw [save_head_filenames]
  congr 1
  apply List.filter_eq_self.mpr
  intro a ha
  obtain ⟨i, _, rfl⟩ := List.mem_map.mp ha
  exact phConfig_filter_pred i

/-- Looking a head-config filename up in the saved association list finds
the head saved at that position. -/
theorem lookup_headConfig : ∀ (heads : List PredictionHead) (k i : Nat),
    k ≤ i → i < k + heads.length →
    ((List.enumFrom k heads).map
        (fun ih => (phConfigFileName ih.1, FileContent.headConfig ih.2))).lookup
      (phConfigFileName i) =
      some (FileContent.headConfig (heads.getD (i - k) dummyHead)) := by
  intro heads
  induction heads with
  | nil =>
    intro k i h1 h2
    simp at h2
    omega
  | cons h t ih =>
    intro k i h1 h2
    simp only [List.enumFrom, List.map_cons]
    by_cases hik : i = k
    · subst hik
      simp [List.lookup, Nat.sub_self]
    · have hbeq : (phConfigFileName i == phConfigFileName k) = false := by
        rw [beq_eq_false_iff_ne]
        exact fun hc => hik (phConfigFileName_inj hc)
      simp only [List.lookup, hbeq]
      rw [ih (k + 1) i (by omega) (by simp at h2 ⊢; omega)]
      have hsub : i - k = (i - (k + 1)) + 1 := by omega
      rw [hsub, List.getD_cons_succ]

/-- Looking up the `i`-th head-config filename in a saved directory. -/
theorem save_lookup (m : BiAdaptiveModel) (i : Nat)
    (hi : i < m.prediction_heads.length) :
    m.save.files.lookup (phConfigFileName i) =
      some (FileContent.headConfig (m.prediction_heads.getD i dummyHead)) := by
  unfold BiAdaptiveModel.save
  have := lookup_headConfig m.prediction_heads 0 i (Nat.zero_le i) (by omega)
  simpa [List.enum_eq_enumFrom] using this

/-- Loading any list of resolvable config files succeeds with one head
per file. -/
theorem loadHeads_ok_exists (files : List (String × FileContent)) :
    ∀ (fs : List String),
      (∀ f ∈ fs, ∃ c, files.lookup f = some (FileContent.headConfig c)) →
      ∃ hs, loadHeads files fs = .ok hs ∧ hs.length = fs.length := by
  intro fs
  induction fs with
  | nil => intro _; exact ⟨[], rfl, rfl⟩
  | cons f t ih =>
    intro hall
    obtain ⟨c, hc⟩ := hall f (List.mem_cons_self _ _)
    obtain ⟨hs, hhs, hlen⟩ := ih (fun x hx => hall x (List.mem_cons_of_mem _ hx))
    refine ⟨c :: hs, ?_, by simp [hlen]⟩
    simp [loadHeads, PredictionHead.loadFile, hc, hhs, Except.map]

/-- Loading the head-config filenames of a list of in-range positions
recovers the heads saved at those positions, in filename order. -/
theorem loadHeads_over_indices (m : BiAdaptiveModel) :
    ∀ (idxs : List Nat), (∀ i ∈ idxs, i < m.prediction_heads.length) →
      loadHeads m.save.files (idxs.map phConfigFileName) =
        .ok (idxs.map (fun i => m.prediction_heads.getD i dummyHead)) := by
  intro idxs
  induction idxs with
  | nil => intro _; rfl
  | cons i t ih =>
    intro hall
    have hi := hall i (List.mem_cons_self _ _)
    have hlk := save_lookup m i hi
    have ht := ih (fun x hx => hall x (List.mem_cons_of_mem _ hx))
    simp [loadHeads, PredictionHead.loadFile, hlk, ht, Except.map]

/-- Reading a list back off its positional `getD` lookups (head lists). -/
theorem map_range_getD_heads (l : List PredictionHead) :
    (List.range l.length).map (fun i => l.getD i dummyHead) = l := by
  apply List.ext_getElem
  · simp
  · intro i h1 h2
    simp only [List.getElem_map, List.getElem_range]
    rw [List.getD_eq_getElem _ _ (by simpa using h2)]

/-- For at most ten heads the indexed config filenames are already in
code-point order, so Python's sort keeps them in place. -/
theorem pySort_phConfig_names (n : Nat) (hn : n ≤ 10) :
    pySort ((List.range n).map phConfigFileName) =
      (List.range n).map phConfigFileName := by
  unfold pySort
  apply List.Sorted.insertionSort_eq
  have h10 : List.Sorted pyStrLe ((List.range 10).map phConfigFileName) := by
    decide
  have hsub : List.Sublist ((List.range n).map phConfigFileName)
      ((List.range 10).map phConfigFileName) :=
    (List.range_sublist.mpr hn).map _
  exact List.Pairwise.sublist hsub h10

/-- C8 (amended): `save(dir)` followed by `load(dir, device)` always
succeeds and reproduces a Model with the same head count and the same
encoder language tags; the head ORDER is reproduced whenever there are at
most ten heads (single-digit filename indices, for which the lexicographic
sort of the config filenames coincides with positional order). -/
theorem c8_save_load_roundtrip (m : BiAdaptiveModel) (device : String) :
    ∃ m', BiAdaptiveModel.load m.save device = .ok m' ∧
      m'.get_language = m.get_language ∧
      m'.prediction_heads.length = m.prediction_heads.length ∧
      (m.prediction_heads.length ≤ 10 →
        m'.prediction_heads = m.prediction_heads) := by
  have hmem : ∀ f ∈ get_prediction_head_files m.save,
      ∃ i, i < m.prediction_heads.length ∧ f = phConfigFileName i := by
    intro f hf
    rw [save_config_files] at hf
    unfold pySort at hf
    rw [List.mem_insertionSort] at hf
    obtain ⟨i, hi, rfl⟩ := List.mem_map.mp hf
    exact ⟨i, List.mem_range.mp hi, rfl⟩
  have hlook : ∀ f ∈ get_prediction_head_files m.save,
      ∃ c, m.save.files.lookup f = some (FileContent.headConfig c) := by
    intro f hf
    obtain ⟨i, hi, rfl⟩ := hmem f hf
    exact ⟨m.prediction_heads.getD i dummyHead, save_lookup m i hi⟩
  obtain ⟨hs, hhs, hlen⟩ := loadHeads_ok_exists m.save.files
    (get_prediction_head_files m.save) hlook
  have hcfg_len : (get_prediction_head_files m.save).length =
      m.prediction_heads.length := by
    rw [save_config_files]
    unfold pySort
    rw [List.length_insertionSort, List.length_map, List.length_range]
  have hlm1 : m.save.lm1 = some m.language_model1 := rfl
  have hlm2 : m.save.lm2 = some m.language_model2 := rfl
  have hload : BiAdaptiveModel.load m.save device =
      .ok (BiAdaptiveModel.init m.language_model1 m.language_model2 hs device
        (fun v => v) (fun v => v) defaultOutputTypes defaultOutputTypes
        Option.none) := by
    unfold BiAdaptiveModel.load
    rw [hlm1, hlm2]
    simp only [LanguageModel.loadDir]
    rw [hhs]
  refine ⟨_, hload, rfl, ?_, ?_⟩
  · show hs.length = m.prediction_heads.length
    rw [hlen, hcfg_len]
  · intro hn10
    show hs = m.prediction_heads
    have hsorted : get_prediction_head_files m.save =
        (List.range m.prediction_heads.length).map phConfigFileName := by
      rw [save_config_files]
      exact pySort_phConfig_names _ hn10
    have hexact := loadHeads_over_indices m (List.range m.prediction_heads.length)
      (fun i hi => List.mem_range.mp hi)
    rw [← hsorted, hhs] at hexact
    have := Except.ok.inj hexact
    rw [this, map_range_getD_heads]

/-- An eleven-head model: the config filename of head 10 sorts between
those of heads 0 and 1 in code-point order. -/
def m11 : BiAdaptiveModel :=
  BiAdaptiveModel.init lmA lmB
    [mkHead "t0" true [] Option.none, mkHead "t1" true [] Option.none,
     mkHead "t2" true [] Option.none, mkHead "t3" true [] Option.none,
     mkHead "t4" true [] Option.none, mkHead "t5" true [] Option.none,
     mkHead "t6" true [] Option.none, mkHead "t7" true [] Option.none,
     mkHead "t8" true [] Option.none, mkHead "t9" true [] Option.none,
     mkHead "t10" true [] Option.none]
    "cpu" id id defaultOutputTypes defaultOutputTypes Option.none

/-- C8 counterexample: with eleven heads, save followed by load changes
the head order — the lexicographic sort places
`prediction_head_10_config.json` immediately after
`prediction_head_0_config.json` — so the loaded task order differs from
the saved one. -/
theorem c8_counterexample :
    (BiAdaptiveModel.load m11.save "cpu").map
        (fun m' => m'.prediction_heads.map (fun h => h.task_name)) ≠
      .ok (m11.prediction_heads.map (fun h => h.task_name)) := by
  decide

/-- C8 witness: a concrete two-head model round-trips with its head
order, head count and languages intact. -/
theorem c8_witness :
    c3Model.prediction_heads.length ≤ 10 ∧
    ∃ m', BiAdaptiveModel.load c3Model.save "cpu" = .ok m' ∧
      m'.get_language = c3Model.get_language ∧
      m'.prediction_heads = c3Model.prediction_heads := by
  refine ⟨by decide, ?_⟩
  obtain ⟨m', h1, h2, h3, h4⟩ := c8_save_load_roundtrip c3Model "cpu"
  exact ⟨m', h1, h2, h4 (by decide)⟩
